import Mathlib

/-!
Shallow embedding of the custom chain selector codec of the
`chain-selectors` repository (files `custom_chains.go` as exercised by
`custom_chains_test.go`, and `evm.go`).

Go `uint64` values are modelled as `Nat`; the operations appearing in the
code (`|`, `&`, comparisons, division-free bit masking) never overflow
64 bits when their arguments are below `2^64`, and where a claim depends
on the 64-bit domain we carry an explicit `< 2^64` hypothesis.

The official registry (`evmChainIdToChainSelector`) is loaded from an
embedded YAML file that is not part of the sources; following the spec's
own framing ("takes registry membership as an injected predicate"), the
registry is passed to each function that consults it as an explicit
association list, which is the shallow embedding of a read-only Go map.
-/

namespace ChainSelectors

/-- Bits 60..63 of a 64-bit word, as an arithmetic fact used to move
between the masking in the source and div/mod reasoning. -/
theorem and_low_eq (s : Nat) : s &&& 0x0FFFFFFFFFFFFFFF = s % 2 ^ 60 := by
  have h : (0x0FFFFFFFFFFFFFFF : Nat) = 2 ^ 60 - 1 := by norm_num
  rw [h, Nat.and_pow_two_sub_one_eq_mod]

/-- Any value below `2^60` has no bits in common with the top-nibble mask. -/
theorem and_top_of_lt (r : Nat) (hr : r < 2 ^ 60) :
    r &&& 0xF000000000000000 = 0 := by
  have h : (0xF000000000000000 : Nat) = 2 ^ 60 * 15 := by norm_num
  rw [h]
  apply Nat.eq_of_testBit_eq
  intro i
  rw [Nat.testBit_land, Nat.testBit_mul_pow_two]
  by_cases hi : 60 ≤ i
  · have : r.testBit i = false := Nat.testBit_lt_two_pow
      (lt_of_lt_of_le hr (Nat.pow_le_pow_right (by norm_num) hi))
    simp [this]
  · simp [hi]

/-- ANDing two multiples of `2^60` multiplies out. -/
theorem mul_and_mul (a b : Nat) :
    (2 ^ 60 * a) &&& (2 ^ 60 * b) = 2 ^ 60 * (a &&& b) := by
  apply Nat.eq_of_testBit_eq
  intro i
  rw [Nat.testBit_land, Nat.testBit_mul_pow_two, Nat.testBit_mul_pow_two,
    Nat.testBit_mul_pow_two, Nat.testBit_land]
  by_cases hi : 60 ≤ i <;> simp [hi]

/-- Masking with the top nibble extracts `2^60 * (s / 2^60)` for 64-bit `s`. -/
theorem and_top_eq (s : Nat) (hs : s < 2 ^ 64) :
    s &&& 0xF000000000000000 = 2 ^ 60 * (s / 2 ^ 60) := by
  have hq : s / 2 ^ 60 < 16 := by
    apply Nat.div_lt_of_lt_mul
    calc s < 2 ^ 64 := hs
    _ = 2 ^ 60 * 16 := by norm_num
  have hr : s % 2 ^ 60 < 2 ^ 60 := Nat.mod_lt _ (by norm_num)
  have hsplit : s = 2 ^ 60 * (s / 2 ^ 60) ||| s % 2 ^ 60 := by
    rw [← Nat.mul_add_lt_is_or hr]
    exact (Nat.div_add_mod s (2 ^ 60)).symm
  conv_lhs => rw [hsplit]
  rw [Nat.and_distrib_right, and_top_of_lt _ hr, Nat.or_zero]
  have hF : (0xF000000000000000 : Nat) = 2 ^ 60 * 15 := by norm_num
  rw [hF, mul_and_mul]
  congr 1
  have h15 : (15 : Nat) = 2 ^ 4 - 1 := by norm_num
  rw [h15, Nat.and_pow_two_sub_one_eq_mod, Nat.mod_eq_of_lt (by omega)]

/-- ORing the custom tag onto a sub-`2^60` payload is addition. -/
theorem or_tag_eq (r : Nat) (hr : r < 2 ^ 60) :
    0xE000000000000000 ||| r = 0xE000000000000000 + r := by
  have h : (0xE000000000000000 : Nat) = 2 ^ 60 * 14 := by norm_num
  rw [h, ← Nat.mul_add_lt_is_or hr]

/-! ### SHA-256 (embedding of Go `crypto/sha256.Sum256`)

A byte is a `Nat` below 256, a word a `Nat` below `2^32`; all word
arithmetic is reduced `% 2^32` exactly where the 32-bit machine ops wrap.
-/

/-- 32-bit right rotation. -/
def rotr32 (x n : Nat) : Nat := ((x >>> n) ||| (x <<< (32 - n))) % 2 ^ 32

/-- SHA-256 `Ch` function. -/
def sha2Ch (x y z : Nat) : Nat := (x &&& y) ^^^ (((2 ^ 32 - 1) ^^^ x) &&& z)

/-- SHA-256 `Maj` function. -/
def sha2Maj (x y z : Nat) : Nat := (x &&& y) ^^^ (x &&& z) ^^^ (y &&& z)

/-- SHA-256 big Σ₀. -/
def bigSigma0 (x : Nat) : Nat := rotr32 x 2 ^^^ rotr32 x 13 ^^^ rotr32 x 22

/-- SHA-256 big Σ₁. -/
def bigSigma1 (x : Nat) : Nat := rotr32 x 6 ^^^ rotr32 x 11 ^^^ rotr32 x 25

/-- SHA-256 small σ₀. -/
def smallSigma0 (x : Nat) : Nat := rotr32 x 7 ^^^ rotr32 x 18 ^^^ (x >>> 3)

/-- SHA-256 small σ₁. -/
def smallSigma1 (x : Nat) : Nat := rotr32 x 17 ^^^ rotr32 x 19 ^^^ (x >>> 10)

/-- The 64 SHA-256 round constants. -/
def sha2K : List Nat :=
  [0x428A2F98, 0x71374491, 0xB5C0FBCF, 0xE9B5DBA5,
   0x3956C25B, 0x59F111F1, 0x923F82A4, 0xAB1C5ED5,
   0xD807AA98, 0x12835B01, 0x243185BE, 0x550C7DC3,
   0x72BE5D74, 0x80DEB1FE, 0x9BDC06A7, 0xC19BF174,
   0xE49B69C1, 0xEFBE4786, 0x0FC19DC6, 0x240CA1CC,
   0x2DE92C6F, 0x4A7484AA, 0x5CB0A9DC, 0x76F988DA,
   0x983E5152, 0xA831C66D, 0xB00327C8, 0xBF597FC7,
   0xC6E00BF3, 0xD5A79147, 0x06CA6351, 0x14292967,
   0x27B70A85, 0x2E1B2138, 0x4D2C6DFC, 0x53380D13,
   0x650A7354, 0x766A0ABB, 0x81C2C92E, 0x92722C85,
   0xA2BFE8A1, 0xA81A664B, 0xC24B8B70, 0xC76C51A3,
   0xD192E819, 0xD6990624, 0xF40E3585, 0x106AA070,
   0x19A4C116, 0x1E376C08, 0x2748774C, 0x34B0BCB5,
   0x391C0CB3, 0x4ED8AA4A, 0x5B9CCA4F, 0x682E6FF3,
   0x748F82EE, 0x78A5636F, 0x84C87814, 0x8CC70208,
   0x90BEFFFA, 0xA4506CEB, 0xBEF9A3F7, 0xC67178F2]

/-- The SHA-256 initial hash state. -/
def sha2H0 : List Nat :=
  [0x6A09E667, 0xBB67AE85, 0x3C6EF372, 0xA54FF53A,
   0x510E527F, 0x9B05688C, 0x1F83D9AB, 0x5BE0CD19]

/-- `k` bytes of `n`, big-endian. -/
def natToBytesBE (n k : Nat) : List Nat :=
  (List.range k).map (fun i => n >>> ((k - 1 - i) * 8) % 256)

/-- SHA-256 message padding: `0x80`, zeros to 56 mod 64, 8-byte bit length. -/
def sha2Pad (msg : List Nat) : List Nat :=
  let zeros := (119 - msg.length % 64) % 64
  msg ++ [0x80] ++ List.replicate zeros 0 ++ natToBytesBE (msg.length * 8) 8

/-- The sixteen big-endian 32-bit words of a 64-byte block. -/
def blockWords (bs : List Nat) : List Nat :=
  (List.range 16).map (fun i =>
    bs.getD (4 * i) 0 <<< 24 ||| bs.getD (4 * i + 1) 0 <<< 16 |||
    bs.getD (4 * i + 2) 0 <<< 8 ||| bs.getD (4 * i + 3) 0)

/-- Message-schedule extension of the 16 block words to 64 words. -/
def sha2Extend (w : List Nat) : List Nat :=
  (List.range 48).foldl (fun w t =>
    let i := t + 16
    w ++ [(smallSigma1 (w.getD (i - 2) 0) + w.getD (i - 7) 0 +
           smallSigma0 (w.getD (i - 15) 0) + w.getD (i - 16) 0) % 2 ^ 32]) w

/-- One round of the SHA-256 compression function. -/
def sha2Round (st : List Nat) (kw : Nat) : List Nat :=
  let a := st.getD 0 0
  let b := st.getD 1 0
  let c := st.getD 2 0
  let d := st.getD 3 0
  let e := st.getD 4 0
  let f := st.getD 5 0
  let g := st.getD 6 0
  let h := st.getD 7 0
  let t1 := (h + bigSigma1 e + sha2Ch e f g + kw) % 2 ^ 32
  let t2 := (bigSigma0 a + sha2Maj a b c) % 2 ^ 32
  [(t1 + t2) % 2 ^ 32, a, b, c, (d + t1) % 2 ^ 32, e, f, g]

/-- Compression of one 64-byte block into the hash state. -/
def sha2Compress (h : List Nat) (block : List Nat) : List Nat :=
  let w := sha2Extend (blockWords block)
  let st := (List.range 64).foldl
    (fun st t => sha2Round st ((sha2K.getD t 0 + w.getD t 0) % 2 ^ 32)) h
  (List.range 8).map (fun i => (h.getD i 0 + st.getD i 0) % 2 ^ 32)

/-- SHA-256 of a byte string, as the list of eight 32-bit state words. -/
def sha256Words (msg : List Nat) : List Nat :=
  let padded := sha2Pad msg
  (List.range (padded.length / 64)).foldl
    (fun h i => sha2Compress h ((padded.drop (64 * i)).take 64)) sha2H0

/-- SHA-256 of a byte string, as 32 bytes (big-endian words). -/
def sha256Bytes (msg : List Nat) : List Nat :=
  (sha256Words msg).flatMap (fun w => natToBytesBE w 4)

/-- `binary.BigEndian.Uint64(hash[:8])`: the first eight digest bytes as a
big-endian 64-bit integer, i.e. the first two state words. -/
def sha256First8 (msg : List Nat) : Nat :=
  (sha256Words msg).getD 0 0 <<< 32 ||| (sha256Words msg).getD 1 0

/-! ### Decimal rendering (embedding of Go `fmt.Sprintf("%d", n)` and
`strconv.FormatUint(n, 10)`) -/

/-- Most-significant-first decimal digits of `n`; the fuel argument is an
upper bound on the digit count, making the recursion structural. -/
def decDigitsAux : Nat → Nat → List Nat
  | 0, _ => []
  | fuel + 1, n => if n < 10 then [n] else decDigitsAux fuel (n / 10) ++ [n % 10]

/-- Decimal digits of `n`, most significant first. -/
def decDigits (n : Nat) : List Nat := decDigitsAux (n + 1) n

/-- ASCII bytes of the decimal rendering of `n`. -/
def decAscii (n : Nat) : List Nat := (decDigits n).map (· + 48)

/-- The decimal rendering of `n` as a string. -/
def decString (n : Nat) : String := String.mk ((decAscii n).map Char.ofNat)

/-! ### The custom selector codec (`custom_chains.go`, the direct-encoding
generation, which the spec adopts over the superseded hash-and-brute-force
generation) -/

/-- ASCII bytes of `fmt.Sprintf("custom-testnet-chain-%d", chainID)`,
the hash preimage used by the fallback path. -/
def customChainMsg (chainID : Nat) : List Nat :=
  "custom-testnet-chain-".toList.map Char.toNat ++ decAscii chainID

/-- `binary.BigEndian.Uint64(sha256.Sum256(...)[:8])` for the fallback. -/
def hashSelectorOf (chainID : Nat) : Nat := sha256First8 (customChainMsg chainID)

/-- `generateCustomChainSelector`: direct `0xE`-tagged encoding for chain
IDs that fit in 60 bits, SHA-256-derived payload beyond that. -/
def generateCustomChainSelector (chainID : Nat) : Nat :=
  if chainID > 0x0FFFFFFFFFFFFFFF then
    0xE000000000000000 ||| (hashSelectorOf chainID &&& 0x0FFFFFFFFFFFFFFF)
  else
    0xE000000000000000 ||| chainID

/-- `generateCustomChainName`: fixed prefixed decimal label. -/
def generateCustomChainName (chainID : Nat) : String :=
  "custom-testnet-" ++ decString chainID

/-- `isCustomSelector`: top nibble equals `0xE`. -/
def isCustomSelector (selector : Nat) : Bool :=
  (selector &&& 0xF000000000000000) == 0xE000000000000000

/-- `ChainDetails` (from `evm.go`). -/
structure ChainDetails where
  chainSelector : Nat
  chainName : String
  deriving DecidableEq, Repr

/-- The injected contents of the `evmChainIdToChainSelector` map (loaded
from embedded YAML outside the sources), as an association list. -/
abbrev Registry := List (Nat × ChainDetails)

/-- `isInOfficialSelectors`: membership in the official map. -/
def isInOfficialSelectors (reg : Registry) (chainID : Nat) : Bool :=
  (reg.lookup chainID).isSome

/-- `isCustomChain`: any chain ID absent from the official map is custom. -/
def isCustomChain (reg : Registry) (chainID : Nat) : Bool :=
  !(isInOfficialSelectors reg chainID)

/-- The two error outcomes of `extractChainIdFromCustomSelector`, each
carrying the selector interpolated into the Go error string. -/
inductive ExtractErr where
  | notACustomSelector (selector : Nat)
  | couldNotReverse (selector : Nat)
  deriving DecidableEq, Repr

/-- `extractChainIdFromCustomSelector`: take the low 60 bits as the
candidate chain ID and accept it when re-encoding reproduces the
selector. -/
def extractChainIdFromCustomSelector (selector : Nat) : Except ExtractErr Nat :=
  if !(isCustomSelector selector) then
    .error (.notACustomSelector selector)
  else
    let chainID := selector &&& 0x0FFFFFFFFFFFFFFF
    if generateCustomChainSelector chainID == selector then
      .ok chainID
    else
      .error (.couldNotReverse selector)

/-! ### Resolver facade (`custom_chains.go`); the `ENABLE_CUSTOM_CHAINS`
environment variable the source reads is passed in as `env` -/

/-- Modelled from the spec: the `FamilyEVM` constant is declared outside
the sources ("one family is modeled — EVM-style chains"); only its
identity is used. -/
def FamilyEVM : String := "evm"

/-- Modelled from the spec: `strconv.ParseUint(chainID, 10, 64)` from the
Go standard library ("InvalidChainIdentifier: malformed textual input
when a chain ID is supplied as text") — a nonempty all-digit decimal
string whose value fits in 64 bits parses to that value. -/
def parseUint (s : String) : Except Unit Nat :=
  if !s.isEmpty && s.toList.all Char.isDigit then
    let v := s.toList.foldl (fun a ch => 10 * a + (ch.toNat - 48)) 0
    if v < 2 ^ 64 then .ok v else .error ()
  else .error ()

/-- The error outcomes of `GetCustomChainSelector`. -/
inductive SelectorErr where
  | customChainsDisabled (chainID : Nat)
  | notFound (chainID : Nat)
  deriving DecidableEq, Repr

/-- `GetCustomChainSelector`: official map first, then the codec when the
chain is custom and the `ENABLE_CUSTOM_CHAINS` value is not `"false"`. -/
def GetCustomChainSelector (reg : Registry) (env : String) (chainID : Nat) :
    Except SelectorErr Nat :=
  match reg.lookup chainID with
  | some details => .ok details.chainSelector
  | none =>
    if isCustomChain reg chainID then
      if env ≠ "false" then .ok (generateCustomChainSelector chainID)
      else .error (.customChainsDisabled chainID)
    else .error (.notFound chainID)

/-- The error outcomes of `GetChainDetailsByChainIDAndFamilyWithCustom`:
a parse failure, or the error of the standard lookup passed through. -/
inductive DetailsErr where
  | invalidChainId (chainID family : String)
  | original (e : String)
  deriving DecidableEq, Repr

/-- `GetChainDetailsByChainIDAndFamilyWithCustom`. The standard lookup
`GetChainDetailsByChainIDAndFamily` is declared outside the sources; its
result is injected as `std` (modelled from the spec: the Official
Registry lookup, which fails for chain IDs absent from it). -/
def GetChainDetailsByChainIDAndFamilyWithCustom
    (std : Except String ChainDetails) (reg : Registry) (env : String)
    (chainID family : String) : Except DetailsErr ChainDetails :=
  match std with
  | .ok details => .ok details
  | .error err =>
    if family == FamilyEVM then
      match parseUint chainID with
      | .error _ => .error (.invalidChainId chainID family)
      | .ok evmChainId =>
        if isCustomChain reg evmChainId then
          if env ≠ "false" then
            .ok ⟨generateCustomChainSelector evmChainId,
                 generateCustomChainName evmChainId⟩
          else .error (.original err)
        else .error (.original err)
    else .error (.original err)

/-! ### Helper lemmas about the codec -/

/-- On the direct path the selector is tag plus chain ID. -/
theorem generate_direct (c : Nat) (hc : c < 2 ^ 60) :
    generateCustomChainSelector c = 0xE000000000000000 + c := by
  unfold generateCustomChainSelector
  rw [if_neg (by omega), or_tag_eq c hc]

/-- On the fallback path the selector is tag plus the hash mod `2^60`. -/
theorem generate_fallback (c : Nat) (hc : 0x0FFFFFFFFFFFFFFF < c) :
    generateCustomChainSelector c = 0xE000000000000000 + hashSelectorOf c % 2 ^ 60 := by
  unfold generateCustomChainSelector
  rw [if_pos (by omega), and_low_eq,
    or_tag_eq _ (Nat.mod_lt _ (by norm_num))]

/-- Tag plus a sub-`2^60` payload is recognised as custom. -/
theorem isCustomSelector_tag_add (r : Nat) (hr : r < 2 ^ 60) :
    isCustomSelector (0xE000000000000000 + r) = true := by
  have hs : 0xE000000000000000 + r < 2 ^ 64 := by omega
  unfold isCustomSelector
  rw [and_top_eq _ hs]
  have hq : (0xE000000000000000 + r) / 2 ^ 60 = 14 := by omega
  rw [hq]
  decide

/-- The top-nibble test in terms of the leading four bits. -/
theorem isCustomSelector_eq_nibble (s : Nat) (hs : s < 2 ^ 64) :
    isCustomSelector s = (s / 2 ^ 60 == 0xE) := by
  unfold isCustomSelector
  rw [and_top_eq _ hs]
  by_cases h : s / 2 ^ 60 = 14
  · rw [h]; decide
  · have h1 : (2 ^ 60 * (s / 2 ^ 60) == 0xE000000000000000) = false := by
      simp only [beq_eq_false_iff_ne, ne_eq]
      omega
    have h2 : (s / 2 ^ 60 == 0xE) = false := by
      simp only [beq_eq_false_iff_ne, ne_eq]
      omega
    rw [h1, h2]

/-- Shared content of claims about decoding tagged selectors: when the
top nibble is the tag, extraction returns the low 60 bits. -/
theorem extract_tagged_aux (s : Nat) (hs : s < 2 ^ 64) (h : s / 2 ^ 60 = 0xE) :
    extractChainIdFromCustomSelector s = .ok (s % 2 ^ 60) := by
  have hr : s % 2 ^ 60 < 2 ^ 60 := Nat.mod_lt _ (by norm_num)
  have h1 : isCustomSelector s = true := by
    rw [isCustomSelector_eq_nibble s hs, h]
    decide
  have h2 : s &&& 0x0FFFFFFFFFFFFFFF = s % 2 ^ 60 := and_low_eq s
  have h3 : generateCustomChainSelector (s % 1152921504606846976) = s := by
    rw [show (1152921504606846976 : Nat) = 2 ^ 60 by norm_num,
      generate_direct _ hr]
    omega
  unfold extractChainIdFromCustomSelector
  simp [h1, h2, h3]

/-- The decimal digit list is nonempty, digit-valued, and evaluates back
to the number. -/
theorem decDigitsAux_spec (fuel : Nat) : ∀ n, n < fuel →
    decDigitsAux fuel n ≠ [] ∧ (∀ d ∈ decDigitsAux fuel n, d < 10) ∧
    (decDigitsAux fuel n).foldl (fun a d => 10 * a + d) 0 = n := by
  induction fuel with
  | zero => intro n h; omega
  | succ fuel ih =>
    intro n h
    by_cases h10 : n < 10
    · refine ⟨by simp [decDigitsAux, h10], ?_, by simp [decDigitsAux, h10]⟩
      intro d hd
      simp [decDigitsAux, h10] at hd
      omega
    · have hn : n / 10 < fuel := by omega
      obtain ⟨hne, hlt, hfold⟩ := ih (n / 10) hn
      refine ⟨by simp [decDigitsAux, h10], ?_, ?_⟩
      · intro d hd
        simp only [decDigitsAux, if_neg h10, List.mem_append,
          List.mem_singleton] at hd
        rcases hd with hd | hd
        · exact hlt d hd
        · omega
      · simp only [decDigitsAux, if_neg h10, List.foldl_append, hfold,
          List.foldl_cons, List.foldl_nil]
        omega

/-- `decString` rendered as a character list over the digit list. -/
theorem decString_eq (n : Nat) :
    decString n = String.mk ((decDigits n).map (fun d => Char.ofNat (d + 48))) := by
  unfold decString decAscii
  rw [List.map_map]
  rfl

/-! ### The claims -/

/-- C1: for every chain ID at most `2^60 - 1`, decoding the selector
produced by encoding it succeeds and returns exactly that chain ID. -/
theorem roundtrip_direct_range (c : Nat) (hc : c ≤ 2 ^ 60 - 1) :
    extractChainIdFromCustomSelector (generateCustomChainSelector c) = .ok c := by
  have hc' : c < 2 ^ 60 := by omega
  rw [generate_direct c hc',
    extract_tagged_aux (0xE000000000000000 + c) (by omega) (by omega)]
  congr 1
  omega

/-- C1 witness at `9388201`. -/
theorem roundtrip_direct_range_witness :
    extractChainIdFromCustomSelector (generateCustomChainSelector 9388201) =
      .ok 9388201 :=
  roundtrip_direct_range 9388201 (by norm_num)

/-- C2, what the code actually does: for every chain ID above `2^60 - 1`
the hash-fallback selector still passes the re-encoding check, so decoding
does not fail with the irreversible-selector condition — it returns the
low 60 bits of the hash, a chain ID different from the encoded one. -/
theorem hash_fallback_misdecoded (c : Nat) (hc : c > 2 ^ 60 - 1) :
    extractChainIdFromCustomSelector (generateCustomChainSelector c) =
      .ok (hashSelectorOf c % 2 ^ 60) ∧ hashSelectorOf c % 2 ^ 60 ≠ c := by
  have h1 : 0x0FFFFFFFFFFFFFFF < c := by omega
  have hm : hashSelectorOf c % 2 ^ 60 < 2 ^ 60 := Nat.mod_lt _ (by norm_num)
  rw [generate_fallback c h1]
  refine ⟨?_, by omega⟩
  rw [extract_tagged_aux _ (by omega) (by omega)]
  congr 1
  omega

set_option maxRecDepth 10000 in
/-- C2 witness at `2^60`: the decoder hands back `43080074871430108`
instead of failing. -/
theorem hash_fallback_misdecoded_witness :
    extractChainIdFromCustomSelector
        (generateCustomChainSelector 1152921504606846976) =
      .ok 43080074871430108 ∧
    (43080074871430108 : Nat) ≠ 1152921504606846976 :=
  ⟨((hash_fallback_misdecoded 1152921504606846976 (by norm_num)).1).trans
    (by rfl), by norm_num⟩

/-- C3: a chain ID is classified custom exactly when it is absent from
the injected official registry, with no numeric threshold involved. -/
theorem isCustomChain_iff_unregistered (reg : Registry) (c : Nat) :
    isCustomChain reg c = true ↔ reg.lookup c = none := by
  unfold isCustomChain isInOfficialSelectors
  cases reg.lookup c <;> simp

/-- C4: `isCustomSelector` holds exactly when the top 4 bits of the
64-bit selector are the custom tag `0xE`; by its type it consults no
registry state. -/
theorem isCustomSelector_iff_top_nibble (s : Nat) (hs : s < 2 ^ 64) :
    isCustomSelector s = true ↔ s / 2 ^ 60 = 0xE := by
  rw [isCustomSelector_eq_nibble s hs]
  simp

/-- C4 witness on both sides of the tag test. -/
theorem isCustomSelector_iff_top_nibble_witness :
    isCustomSelector 0xE000000000000005 = true ∧
    isCustomSelector 0xD000000000000005 = false :=
  ⟨(isCustomSelector_iff_top_nibble 0xE000000000000005 (by norm_num)).mpr
    (by norm_num), by decide⟩

/-- C5: a selector whose top nibble is not the custom tag is rejected
immediately with the not-a-custom-selector error. -/
theorem extract_rejects_untagged (s : Nat) (hs : s < 2 ^ 64)
    (h : s / 2 ^ 60 ≠ 0xE) :
    extractChainIdFromCustomSelector s = .error (.notACustomSelector s) := by
  have h1 : isCustomSelector s = false := by
    rw [isCustomSelector_eq_nibble s hs]
    simpa using h
  unfold extractChainIdFromCustomSelector
  simp [h1]

/-- C5 witness at selector `1`. -/
theorem extract_rejects_untagged_witness :
    extractChainIdFromCustomSelector 1 = .error (.notACustomSelector 1) :=
  extract_rejects_untagged 1 (by norm_num) (by norm_num)

/-- C6: on the direct range the selector is the tag OR-ed with the chain
ID, its top nibble is the tag, its low 60 bits are the chain ID, and it
decodes back to the chain ID. -/
theorem direct_encoding_form (c : Nat) (hc : c ≤ 2 ^ 60 - 1) :
    generateCustomChainSelector c = 0xE000000000000000 ||| c ∧
    generateCustomChainSelector c / 2 ^ 60 = 0xE ∧
    generateCustomChainSelector c % 2 ^ 60 = c ∧
    extractChainIdFromCustomSelector (generateCustomChainSelector c) = .ok c := by
  have hc' : c < 2 ^ 60 := by omega
  have hgen := generate_direct c hc'
  refine ⟨?_, by rw [hgen]; omega, by rw [hgen]; omega, ?_⟩
  · rw [hgen, or_tag_eq c hc']
  · rw [hgen, extract_tagged_aux _ (by omega) (by omega)]
    congr 1
    omega

/-- C6 witness at `9388201`. -/
theorem direct_encoding_form_witness :
    generateCustomChainSelector 9388201 = 0xE000000000000000 ||| 9388201 ∧
    generateCustomChainSelector 9388201 / 2 ^ 60 = 0xE ∧
    generateCustomChainSelector 9388201 % 2 ^ 60 = 9388201 ∧
    extractChainIdFromCustomSelector (generateCustomChainSelector 9388201) =
      .ok 9388201 :=
  direct_encoding_form 9388201 (by norm_num)

/-- C7: every generated selector, on either path, carries the custom tag. -/
theorem generated_selector_is_custom (c : Nat) :
    isCustomSelector (generateCustomChainSelector c) = true := by
  by_cases h : 0x0FFFFFFFFFFFFFFF < c
  · rw [generate_fallback c h]
    exact isCustomSelector_tag_add _ (Nat.mod_lt _ (by norm_num))
  · rw [generate_direct c (by omega)]
    exact isCustomSelector_tag_add _ (by omega)

/-- C8: with `ENABLE_CUSTOM_CHAINS` set to `"false"`, resolving an
unregistered chain ID fails with the custom-chains-disabled condition and
the details lookup passes the original error through instead of returning
generated custom details. -/
theorem disabled_blocks_custom_resolution (reg : Registry) (s : String)
    (c : Nat) (err : String) (hparse : parseUint s = .ok c)
    (hreg : reg.lookup c = none) :
    GetCustomChainSelector reg "false" c = .error (.customChainsDisabled c) ∧
    GetChainDetailsByChainIDAndFamilyWithCustom (.error err) reg "false" s
      FamilyEVM = .error (.original err) := by
  have hcustom : isCustomChain reg c = true := by
    unfold isCustomChain isInOfficialSelectors
    rw [hreg]
    rfl
  constructor
  · unfold GetCustomChainSelector
    rw [hreg]
    simp [hcustom]
  · unfold GetChainDetailsByChainIDAndFamilyWithCustom
    simp [hparse, hcustom]

/-- C8 witness: empty registry, chain ID `5`. -/
theorem disabled_blocks_custom_resolution_witness :
    GetCustomChainSelector [] "false" 5 = .error (.customChainsDisabled 5) ∧
    GetChainDetailsByChainIDAndFamilyWithCustom (.error "chain not found") []
      "false" "5" FamilyEVM = .error (.original "chain not found") :=
  disabled_blocks_custom_resolution [] "5" 5 "chain not found" (by rfl) (by rfl)

/-- C9: the custom chain name is the fixed prefix `custom-testnet-`
followed by the decimal rendering of the chain ID (a nonempty digit
string evaluating back to the chain ID), for every chain ID. -/
theorem custom_name_shape (c : Nat) : ∃ ds : List Nat,
    generateCustomChainName c =
      "custom-testnet-" ++ String.mk (ds.map (fun d => Char.ofNat (d + 48))) ∧
    ds ≠ [] ∧ (∀ d ∈ ds, d < 10) ∧
    ds.foldl (fun a d => 10 * a + d) 0 = c := by
  obtain ⟨h1, h2, h3⟩ := decDigitsAux_spec (c + 1) c (by omega)
  exact ⟨decDigits c,
    by unfold generateCustomChainName; rw [decString_eq], h1, h2, h3⟩

/-- C10: for every selector whose top nibble is the custom tag,
extraction succeeds with the selector's low 60 bits — the re-encoding
verification never fails, so the could-not-reverse branch is
unreachable. -/
theorem extract_total_on_tagged (s : Nat) (hs : s < 2 ^ 64)
    (h : s / 2 ^ 60 = 0xE) :
    extractChainIdFromCustomSelector s = .ok (s % 2 ^ 60) :=
  extract_tagged_aux s hs h

/-- C10 witness at a tagged selector with payload `42`. -/
theorem extract_total_on_tagged_witness :
    extractChainIdFromCustomSelector 0xE00000000000002A = .ok 42 :=
  extract_total_on_tagged 0xE00000000000002A (by norm_num) (by norm_num)

end ChainSelectors
